import Mathlib

/-!
# Verification of the tev IPC Python client (`src/python/tev.py`)

Shallow embedding of the wire-protocol encoder, the image-update tiler,
the vector-graphics command serializer and the `Ipc` session state machine
from `src/python/tev.py` (the canonical, most recent revision of the client;
`src/python/ipc.py` is the older duplicate).

Modelling conventions:
* A byte string is a `List Nat` (each entry the value of one byte).
* A Python `str` is a `List Nat` of Unicode code points; `bytes(s, "UTF-8")`
  is `utf8Encode`, and `bytes(s, "ascii")` succeeds exactly when every code
  point is below 128 (in which case the bytes are the code points).
* `struct.pack` fixed-width fields are modelled by `pack_u32` / `pack_i32` /
  `pack_i64` / `pack_b` over `Nat` / `Int` with explicit two's-complement
  reduction modulo `2^w`.  (Python raises `struct.error` outside the
  representable range; the claims only exercise in-range values, which the
  relevant theorems make explicit through range hypotheses.)
* Python floats are IEEE-754 binary64 values converted to binary32 on the
  wire (`struct.pack("<f", ...)`, `np.array(..., dtype="<f")`).  The
  embedding restricts float-valued parameters and pixel values to
  integer-valued floats, on which the binary32 conversion is exact for
  magnitudes below `2^24`; `f32bitsOfInt` computes the binary32 bit pattern
  of such an integer.
* The TCP socket is a mock recording the byte strings passed to `sendall`;
  `sendall` on a closed socket fails with an `osError` (Python's `OSError`),
  and on an open socket appends the buffer to the transcript.
-/

/-- Little-endian base-256 value of a byte string. -/
def leBytes : List Nat → Nat
  | [] => 0
  | a :: r => a + 256 * leBytes r

/-- `struct.pack("<I", v)`: 4 little-endian bytes of `v` (mod `2^32`). -/
def pack_u32 (v : Nat) : List Nat :=
  [v % 256, v / 256 % 256, v / 65536 % 256, v / 16777216 % 256]

/-- `struct.pack("<i", v)`: 4 little-endian two's-complement bytes. -/
def pack_i32 (v : Int) : List Nat :=
  pack_u32 (v % 4294967296).toNat

/-- `struct.pack("<q", v)`: 8 little-endian two's-complement bytes. -/
def pack_i64 (v : Int) : List Nat :=
  let n := (v % 18446744073709551616).toNat
  [n % 256, n / 256 % 256, n / 65536 % 256, n / 16777216 % 256,
   n / 4294967296 % 256, n / 1099511627776 % 256,
   n / 281474976710656 % 256, n / 72057594037927936 % 256]

/-- `struct.pack("<b", v)`: one two's-complement byte. -/
def pack_b (v : Int) : List Nat :=
  [(v % 256).toNat]

/-- `struct.pack("<b", flag)` for a Python `bool` (False = 0, True = 1). -/
def packBool (b : Bool) : List Nat :=
  [if b then 1 else 0]

/-- UTF-8 encoding of one Unicode code point (arithmetic form of the
standard leading/continuation-byte layout). -/
def utf8EncodeChar (c : Nat) : List Nat :=
  if c < 128 then [c]
  else if c < 2048 then [192 + c / 64, 128 + c % 64]
  else if c < 65536 then [224 + c / 4096, 128 + c / 64 % 64, 128 + c % 64]
  else [240 + c / 262144, 128 + c / 4096 % 64, 128 + c / 64 % 64, 128 + c % 64]

/-- `bytes(s, "UTF-8")` for a string given as its code points. -/
def utf8Encode (s : List Nat) : List Nat :=
  s.flatMap utf8EncodeChar

/-- Whether `bytes(s, "ascii")` succeeds: every code point below 128
(the resulting bytes are then the code points themselves). -/
def asciiOk (s : List Nat) : Bool :=
  s.all (fun c => c < 128)

/-- Fuel-driven floor of the base-2 logarithm (the fuel `n` itself always
suffices since `log2 n ≤ n`); structurally recursive so that concrete
packets evaluate inside the kernel. -/
def log2Aux : Nat → Nat → Nat
  | 0, _ => 0
  | fuel + 1, n => if n < 2 then 0 else 1 + log2Aux fuel (n / 2)

def natLog2 (n : Nat) : Nat := log2Aux n n

/-- IEEE-754 binary32 bit pattern of an integer-valued float.  Exact for
`|m| < 2^24`, the range on which binary32 represents every integer; all
values serialized by the claims lie far inside it. -/
def f32bitsOfInt (m : Int) : Nat :=
  if m = 0 then 0
  else
    let a := m.natAbs
    let e := natLog2 a
    (if m < 0 then 2147483648 else 0) + (127 + e) * 8388608 + (a * 2 ^ (23 - e) - 8388608)

/-- `struct.pack("<f", v)` / one element of `np.array(..., dtype="<f").tobytes()`. -/
def f32le (m : Int) : List Nat :=
  pack_u32 (f32bitsOfInt m)

/-- `data_bytes[0:4] = struct.pack("<I", len(data_bytes))`: patch the first
four bytes with the little-endian total length. -/
def patchLen (b : List Nat) : List Nat :=
  pack_u32 b.length ++ b.drop 4

/-- Assemble a packet the way every encoder method does: a 4-byte zero
placeholder, the body, then the length patched in. -/
def buildPacket (body : List Nat) : List Nat :=
  patchLen (pack_u32 0 ++ body)

/-- Errors raised by the client (`Exception` messages in the source) and by
the transport. -/
inductive TevError where
  /-- `Exception("Communication already started")` (spec: StateError). -/
  | communicationAlreadyStarted
  /-- `Exception("Communication was not started")` (spec: StateError). -/
  | communicationWasNotStarted
  /-- `Exception("Not enough channel names provided")` (spec: ConfigurationError). -/
  | notEnoughChannelNames
  /-- Python `UnicodeEncodeError` from `bytes(name, "ascii")` on non-ASCII input. -/
  | unicodeEncodeError
  /-- Python `ValueError` ("range() arg 3 must not be zero") raised by the
  tiling loops of `update_image` when a loop step is zero: with
  `perform_tiling=False` the steps are the buffer's own dimensions, so a
  zero dimension makes the corresponding `range` call raise. -/
  | valueError
  /-- Transport-level `OSError` from `socket.sendall` on a closed socket. -/
  | osError
  deriving DecidableEq, Repr

-- `IpcPacketType` from `tev.py` (`IntEnum` values).
namespace IpcPacketType

def OpenImage : Int := 7
def ReloadImage : Int := 1
def CloseImage : Int := 2
def CreateImage : Int := 4
def UpdateImage : Int := 6
def VectorGraphics : Int := 8

end IpcPacketType

/-- `VgCommand.Type` from `tev.py` (`IntEnum`, in sync with
`VgCommand::EType` from VectorGraphics.h). -/
inductive VgType where
  | Save | Restore | FillColor | Fill | StrokeColor | Stroke
  | BeginPath | ClosePath | PathWinding | DebugDumpPathCache
  | MoveTo | LineTo | ArcTo | Arc | BezierTo | Circle | Ellipse
  | QuadTo | Rect | RoundedRect | RoundedRectVarying
  deriving DecidableEq, Repr

/-- Numeric value of each `VgCommand.Type` member. -/
def VgType.val : VgType → Int
  | .Save => 0
  | .Restore => 1
  | .FillColor => 2
  | .Fill => 3
  | .StrokeColor => 4
  | .Stroke => 5
  | .BeginPath => 6
  | .ClosePath => 7
  | .PathWinding => 8
  | .DebugDumpPathCache => 9
  | .MoveTo => 10
  | .LineTo => 11
  | .ArcTo => 12
  | .Arc => 13
  | .BezierTo => 14
  | .Circle => 15
  | .Ellipse => 16
  | .QuadTo => 17
  | .Rect => 18
  | .RoundedRect => 19
  | .RoundedRectVarying => 20

/-- A `VgCommand`: a type tag and an optional tuple of float parameters
(restricted to integer-valued floats, see the file header). -/
structure VgCommand where
  type : VgType
  data : Option (List Int) := none
  deriving DecidableEq, Repr

def vg_save : VgCommand := { type := .Save }

def vg_restore : VgCommand := { type := .Restore }

def vg_fill_color (r g b a : Int) : VgCommand := { type := .FillColor, data := some [r, g, b, a] }

def vg_fill : VgCommand := { type := .Fill }

def vg_stroke_color (r g b a : Int) : VgCommand := { type := .StrokeColor, data := some [r, g, b, a] }

def vg_stroke : VgCommand := { type := .Stroke }

def vg_begin_path : VgCommand := { type := .BeginPath }

def vg_close_path : VgCommand := { type := .ClosePath }

def vg_path_winding (num : Int) : VgCommand := { type := .PathWinding, data := some [num] }

def vg_debug_dump_path_cache : VgCommand := { type := .DebugDumpPathCache }

def vg_move_to (x y : Int) : VgCommand := { type := .MoveTo, data := some [x, y] }

def vg_line_to (x y : Int) : VgCommand := { type := .LineTo, data := some [x, y] }

def vg_arc_to (x1 y1 x2 y2 radius : Int) : VgCommand :=
  { type := .ArcTo, data := some [x1, y1, x2, y2, radius] }

def vg_bezier_to (c1x c1y c2x c2y x y : Int) : VgCommand :=
  { type := .BezierTo, data := some [c1x, c1y, c2x, c2y, x, y] }

def vg_circle (cx cy radius : Int) : VgCommand :=
  { type := .Circle, data := some [cx, cy, radius] }

def vg_ellipse (cx cy rx ry : Int) : VgCommand :=
  { type := .Ellipse, data := some [cx, cy, rx, ry] }

def vg_quad_to (cx cy x y : Int) : VgCommand :=
  { type := .QuadTo, data := some [cx, cy, x, y] }

def vg_rect (x y width height : Int) : VgCommand :=
  { type := .Rect, data := some [x, y, width, height] }

def vg_rounded_rect (x y width height radius : Int) : VgCommand :=
  { type := .RoundedRect, data := some [x, y, width, height, radius] }

/-- Serialization of one `VgCommand` inside the VectorGraphics packet body:
`struct.pack("<b", command.type)` then, when data is present,
`np.array(command.data, dtype="<f").tobytes()`. -/
def vgCommandBytes (c : VgCommand) : List Nat :=
  pack_b c.type.val ++ (match c.data with
    | none => []
    | some ds => ds.flatMap f32le)

/-- A numpy pixel buffer as `update_image` sees it: `shape0` rows, `shape1`
columns, `shape2 = some c` when the buffer has a third (channel) axis of
size `c` and `none` for a 2-D buffer; `pix r c k` is the (integer-valued)
pixel at row `r`, column `c`, channel `k` (`k = 0` for a 2-D buffer). -/
structure NpImage where
  shape0 : Nat
  shape1 : Nat
  shape2 : Option Nat
  pix : Nat → Nat → Nat → Int

/-- `n_channels = 1 if len(image.shape) < 3 else image.shape[2]`. -/
def nChannelsOf (img : NpImage) : Nat :=
  match img.shape2 with
  | none => 1
  | some c => c

/-- `ceil(a / b)` on naturals (for `b > 0`). -/
def ceilDiv (a b : Nat) : Nat := (a + b - 1) / b

/-- Python `range(0, stop, step)` for `step > 0`: the `ceilDiv stop step`
multiples of `step` below `stop`. -/
def pyRange (stop step : Nat) : List Nat :=
  List.range' 0 (ceilDiv stop step) step

/-- The `(i, j)` loop origins of the two nested tiling loops of
`update_image`, in their (row-major) iteration order. -/
def updateTileOrigins (H W th tw : Nat) : List (Nat × Nat) :=
  (pyRange H th).flatMap fun i => (pyRange W tw).map fun j => (i, j)

/-- Extent of the slice `i : min(i + step, dim)` — the clipped tile size. -/
def tileExtent (dim i step : Nat) : Nat :=
  min (i + step) dim - i

/-- `tile_dense.tobytes()`: the dense row-major `[row][col][channel]`
little-endian float32 bytes of the tile with origin `(i, j)` and extent
`h × w`. -/
def tilePixelBytes (img : NpImage) (i j h w : Nat) : List Nat :=
  match img.shape2 with
  | none =>
      (List.range h).flatMap fun r =>
        (List.range w).flatMap fun c => f32le (img.pix (i + r) (j + c) 0)
  | some ch =>
      (List.range h).flatMap fun r =>
        (List.range w).flatMap fun c =>
          (List.range ch).flatMap fun k => f32le (img.pix (i + r) (j + c) k)

/-- The `UpdateImage` packet for one tile of `update_image`: origin
`(i, j)`, extent `h × w`, absolute offset `(x + j, y + i)`. -/
def updateImageTilePacket (name : List Nat) (img : NpImage)
    (channelNames : List (List Nat)) (nChannels : Nat)
    (channelOffsets channelStrides : List Int)
    (x y : Int) (grabFocus : Bool) (i j h w : Nat) : List Nat :=
  buildPacket
    (pack_b IpcPacketType.UpdateImage ++ packBool grabFocus
      ++ utf8Encode name ++ [0]
      ++ pack_i32 nChannels
      ++ (channelNames.take nChannels).flatMap (fun cn => utf8Encode cn ++ [0])
      ++ pack_i32 (x + j) ++ pack_i32 (y + i)
      ++ pack_i32 w ++ pack_i32 h
      ++ channelOffsets.flatMap pack_i64
      ++ channelStrides.flatMap pack_i64
      ++ tilePixelBytes img i j h w)

/-- `Ipc.update_image` up to (but excluding) the socket sends: the ordered
list of tile packets, or the error raised before any packet is built.
Python's `range(start, stop, step)` raises `ValueError` when `step = 0`:
the outer loop's `range(0, shape[0], tileSize.1)` raises as soon as it is
constructed when `tileSize.1 = 0`, and the inner
`range(0, shape[1], tileSize.2)` raises on the first outer iteration
(i.e. only when `0 < shape[0]`) when `tileSize.2 = 0`.  Both raise before
any packet is built or sent; the channel-name check precedes them. -/
def updateImagePackets (name : List Nat) (img : NpImage)
    (channelNames : List (List Nat)) (x y : Int)
    (grabFocus performTiling : Bool) : Except TevError (List (List Nat)) :=
  let tileSize : Nat × Nat := if performTiling then (128, 128) else (img.shape0, img.shape1)
  let nChannels := nChannelsOf img
  let channelOffsets := (List.range nChannels).map Int.ofNat
  let channelStrides := List.replicate nChannels (Int.ofNat nChannels)
  if channelNames.length < nChannels then
    .error .notEnoughChannelNames
  else if tileSize.1 = 0 ∨ (tileSize.2 = 0 ∧ 0 < img.shape0) then
    .error .valueError
  else
    .ok ((updateTileOrigins img.shape0 img.shape1 tileSize.1 tileSize.2).map fun p =>
      updateImageTilePacket name img channelNames nChannels channelOffsets channelStrides
        x y grabFocus p.1 p.2
        (tileExtent img.shape0 p.1 tileSize.1) (tileExtent img.shape1 p.2 tileSize.2))

/-- The `OpenImage` packet of `Ipc.open_image`. -/
def openImagePacket (path channelSelector : List Nat) (grabFocus : Bool) : List Nat :=
  buildPacket
    (pack_b IpcPacketType.OpenImage ++ packBool grabFocus
      ++ utf8Encode path ++ [0]
      ++ utf8Encode channelSelector ++ [0])

/-- The `ReloadImage` packet of `Ipc.reload_image`. -/
def reloadImagePacket (name : List Nat) (grabFocus : Bool) : List Nat :=
  buildPacket
    (pack_b IpcPacketType.ReloadImage ++ packBool grabFocus
      ++ utf8Encode name ++ [0])

/-- The `CloseImage` packet of `Ipc.close_image`. -/
def closeImagePacket (name : List Nat) : List Nat :=
  buildPacket
    (pack_b IpcPacketType.CloseImage ++ utf8Encode name ++ [0])

/-- The `CreateImage` packet of `Ipc.create_image`; channel names are
encoded with `bytes(channel_name, "ascii")`, which raises a
`UnicodeEncodeError` on any non-ASCII code point (before anything is sent). -/
def createImagePacket (name : List Nat) (width height : Int)
    (channelNames : List (List Nat)) (grabFocus : Bool) : Except TevError (List Nat) :=
  if channelNames.all asciiOk then
    .ok (buildPacket
      (pack_b IpcPacketType.CreateImage ++ packBool grabFocus
        ++ utf8Encode name ++ [0]
        ++ pack_i32 width ++ pack_i32 height
        ++ pack_i32 channelNames.length
        ++ channelNames.flatMap (fun cn => cn ++ [0])))
  else
    .error .unicodeEncodeError

/-- The `VectorGraphics` packet of `Ipc.update_vector_graphics`. -/
def updateVectorGraphicsPacket (name : List Nat) (commands : List VgCommand)
    (append grabFocus : Bool) : List Nat :=
  buildPacket
    (pack_b IpcPacketType.VectorGraphics ++ packBool grabFocus
      ++ utf8Encode name ++ [0]
      ++ packBool append
      ++ pack_u32 commands.length
      ++ commands.flatMap vgCommandBytes)

/-- Mock of the TCP socket: whether `close()` has run, and the transcript of
buffers passed to `sendall`. -/
structure MockSocket where
  closed : Bool
  sent : List (List Nat)
  deriving DecidableEq, Repr

/-- `socket.sendall`: fails with `OSError` on a closed socket, otherwise
records the buffer. -/
def MockSocket.sendall (sk : MockSocket) (b : List Nat) : Except TevError MockSocket :=
  if sk.closed then .error .osError else .ok { sk with sent := sk.sent ++ [b] }

/-- Send a list of packets in order, stopping at the first failure and
returning the socket state reached at that point. -/
def sendPackets (sk : MockSocket) : List (List Nat) → Except TevError Unit × MockSocket
  | [] => (.ok (), sk)
  | p :: ps =>
    match sk.sendall p with
    | .error e => (.error e, sk)
    | .ok sk2 => sendPackets sk2 ps

/-- The `Ipc` object: hostname and port (as constructed), and `_socket`
(`none` until `__enter__` runs). -/
structure Ipc where
  hostname : List Nat
  port : Nat
  socket : Option MockSocket
  deriving DecidableEq, Repr

/-- `Ipc(hostname, port)`. -/
def Ipc.init (hostname : List Nat) (port : Nat) : Ipc :=
  { hostname := hostname, port := port, socket := none }

/-- `Ipc.__enter__`: raises when a socket already exists, otherwise connects
a fresh socket.  The raise happens before any mutation, so the pre-state is
returned unchanged on error. -/
def Ipc.enter (s : Ipc) : Except TevError Unit × Ipc :=
  match s.socket with
  | some _ => (.error .communicationAlreadyStarted, s)
  | none => (.ok (), { s with socket := some { closed := false, sent := [] } })

/-- `Ipc.__exit__`: raises when no socket exists; otherwise delegates to
`socket.__exit__`, which closes the socket.  `self._socket` is not reset to
`None`. -/
def Ipc.exit (s : Ipc) : Except TevError Unit × Ipc :=
  match s.socket with
  | none => (.error .communicationWasNotStarted, s)
  | some sk => (.ok (), { s with socket := some { sk with closed := true } })

/-- `Ipc.open_image`. -/
def Ipc.open_image (s : Ipc) (path channelSelector : List Nat)
    (grabFocus : Bool) : Except TevError Unit × Ipc :=
  match s.socket with
  | none => (.error .communicationWasNotStarted, s)
  | some sk =>
    match sk.sendall (openImagePacket path channelSelector grabFocus) with
    | .error e => (.error e, s)
    | .ok sk2 => (.ok (), { s with socket := some sk2 })

/-- `Ipc.reload_image`. -/
def Ipc.reload_image (s : Ipc) (name : List Nat) (grabFocus : Bool) :
    Except TevError Unit × Ipc :=
  match s.socket with
  | none => (.error .communicationWasNotStarted, s)
  | some sk =>
    match sk.sendall (reloadImagePacket name grabFocus) with
    | .error e => (.error e, s)
    | .ok sk2 => (.ok (), { s with socket := some sk2 })

/-- `Ipc.close_image`. -/
def Ipc.close_image (s : Ipc) (name : List Nat) : Except TevError Unit × Ipc :=
  match s.socket with
  | none => (.error .communicationWasNotStarted, s)
  | some sk =>
    match sk.sendall (closeImagePacket name) with
    | .error e => (.error e, s)
    | .ok sk2 => (.ok (), { s with socket := some sk2 })

/-- `Ipc.create_image`. -/
def Ipc.create_image (s : Ipc) (name : List Nat) (width height : Int)
    (channelNames : List (List Nat)) (grabFocus : Bool) :
    Except TevError Unit × Ipc :=
  match s.socket with
  | none => (.error .communicationWasNotStarted, s)
  | some sk =>
    match createImagePacket name width height channelNames grabFocus with
    | .error e => (.error e, s)
    | .ok p =>
      match sk.sendall p with
      | .error e => (.error e, s)
      | .ok sk2 => (.ok (), { s with socket := some sk2 })

/-- `Ipc.update_image`: the socket guard, the packet construction of
`updateImagePackets`, then one `sendall` per tile in order. -/
def Ipc.update_image (s : Ipc) (name : List Nat) (img : NpImage)
    (channelNames : List (List Nat)) (x y : Int)
    (grabFocus performTiling : Bool) : Except TevError Unit × Ipc :=
  match s.socket with
  | none => (.error .communicationWasNotStarted, s)
  | some sk =>
    match updateImagePackets name img channelNames x y grabFocus performTiling with
    | .error e => (.error e, s)
    | .ok ps =>
      match sendPackets sk ps with
      | (.error e, sk2) => (.error e, { s with socket := some sk2 })
      | (.ok _, sk2) => (.ok (), { s with socket := some sk2 })

/-- `Ipc.update_vector_graphics`. -/
def Ipc.update_vector_graphics (s : Ipc) (name : List Nat)
    (commands : List VgCommand) (append grabFocus : Bool) :
    Except TevError Unit × Ipc :=
  match s.socket with
  | none => (.error .communicationWasNotStarted, s)
  | some sk =>
    match sk.sendall (updateVectorGraphicsPacket name commands append grabFocus) with
    | .error e => (.error e, s)
    | .ok sk2 => (.ok (), { s with socket := some sk2 })

/-!
## A decoder for `UpdateImage` packets

The spec's wire-format table (§4.2) fixes the byte layout of each command.
To state claims about individual fields of an emitted packet (its x/y
offsets, extent, channel metadata) we parse the packet back with a
straightforward decoder and prove that parsing an encoder output recovers
the intended field values.
-/

/-- Read exactly `n` bytes. -/
def readBytes (n : Nat) (b : List Nat) : Option (List Nat × List Nat) :=
  if n ≤ b.length then some (b.take n, b.drop n) else none

/-- Read a NUL-terminated string (the bytes before the first 0). -/
def readCString (b : List Nat) : Option (List Nat × List Nat) :=
  match b.drop (b.takeWhile (fun a => a != 0)).length with
  | 0 :: rest => some (b.takeWhile (fun a => a != 0), rest)
  | _ => none

/-- Two's-complement value of a 32-bit little-endian quantity. -/
def decodeI32n (n : Nat) : Int :=
  if n < 2147483648 then (n : Int) else (n : Int) - 4294967296

/-- Two's-complement value of a 64-bit little-endian quantity. -/
def decodeI64n (n : Nat) : Int :=
  if n < 9223372036854775808 then (n : Int) else (n : Int) - 18446744073709551616

/-- Read a little-endian int32. -/
def readI32 (b : List Nat) : Option (Int × List Nat) :=
  match readBytes 4 b with
  | some (bs, rest) => some (decodeI32n (leBytes bs), rest)
  | none => none

/-- Read a little-endian int64. -/
def readI64 (b : List Nat) : Option (Int × List Nat) :=
  match readBytes 8 b with
  | some (bs, rest) => some (decodeI64n (leBytes bs), rest)
  | none => none

/-- Read `n` NUL-terminated strings. -/
def readCStrings : Nat → List Nat → Option (List (List Nat) × List Nat)
  | 0, b => some ([], b)
  | n + 1, b =>
    match readCString b with
    | some (s, rest) =>
      match readCStrings n rest with
      | some (ss, rest2) => some (s :: ss, rest2)
      | none => none
    | none => none

/-- Read `n` little-endian int64 values. -/
def readI64s : Nat → List Nat → Option (List Int × List Nat)
  | 0, b => some ([], b)
  | n + 1, b =>
    match readI64 b with
    | some (v, rest) =>
      match readI64s n rest with
      | some (vs, rest2) => some (v :: vs, rest2)
      | none => none
    | none => none

/-- The fields of a decoded `UpdateImage` packet (spec §4.2 row
`UpdateImage`). -/
structure UpdateFields where
  totalLen : Nat
  grabFocusByte : Nat
  nameBytes : List Nat
  nChannels : Int
  channelNameBytes : List (List Nat)
  x : Int
  y : Int
  width : Int
  height : Int
  channelOffsets : List Int
  channelStrides : List Int
  pixelBytes : List Nat
  deriving DecidableEq, Repr

/-- Parse an `UpdateImage` packet: length, tag `6`, grabFocus byte, name,
channel count, channel names, x, y, width, height, offset/stride arrays,
and the remaining bytes as pixel data. -/
def decodeUpdatePacket (b : List Nat) : Option UpdateFields :=
  match readBytes 4 b with
  | none => none
  | some (lenB, b1) =>
    match readBytes 1 b1 with
    | none => none
    | some (tagB, b2) =>
      if tagB ≠ [6] then none else
      match readBytes 1 b2 with
      | none => none
      | some (gfB, b3) =>
        match readCString b3 with
        | none => none
        | some (name, b4) =>
          match readI32 b4 with
          | none => none
          | some (nch, b5) =>
            match readCStrings nch.toNat b5 with
            | none => none
            | some (cnames, b6) =>
              match readI32 b6 with
              | none => none
              | some (x, b7) =>
                match readI32 b7 with
                | none => none
                | some (y, b8) =>
                  match readI32 b8 with
                  | none => none
                  | some (w, b9) =>
                    match readI32 b9 with
                    | none => none
                    | some (h, b10) =>
                      match readI64s nch.toNat b10 with
                      | none => none
                      | some (offs, b11) =>
                        match readI64s nch.toNat b11 with
                        | none => none
                        | some (strides, b12) =>
                          some ⟨leBytes lenB, leBytes gfB, name, nch, cnames,
                                x, y, w, h, offs, strides, b12⟩

/-!
## Framing and round-trip lemmas
-/

theorem length_pack_u32 (v : Nat) : (pack_u32 v).length = 4 := by
  simp [pack_u32]

theorem length_pack_i32 (v : Int) : (pack_i32 v).length = 4 := by
  simp [pack_i32, pack_u32]

theorem length_pack_i64 (v : Int) : (pack_i64 v).length = 8 := by
  simp [pack_i64]

theorem length_packBool (b : Bool) : (packBool b).length = 1 := by
  simp [packBool]

theorem length_pack_b (v : Int) : (pack_b v).length = 1 := by
  simp [pack_b]

theorem leBytes_pack_u32 (v : Nat) : leBytes (pack_u32 v) = v % 4294967296 := by
  simp [pack_u32, leBytes]
  omega

/-- The placeholder-then-patch assembly is equivalent to prefixing the body
with its final total length. -/
theorem buildPacket_eq (body : List Nat) :
    buildPacket body = pack_u32 (4 + body.length) ++ body := by
  unfold buildPacket patchLen
  simp [pack_u32]
  omega

theorem length_buildPacket (body : List Nat) :
    (buildPacket body).length = 4 + body.length := by
  rw [buildPacket_eq]
  simp [pack_u32]
  omega

/-- Core of the length-framing invariant: the first four bytes of any
assembled packet, read little-endian, give the packet's byte count. -/
theorem buildPacket_lengthPrefix (body : List Nat)
    (h : (buildPacket body).length < 4294967296) :
    leBytes ((buildPacket body).take 4) = (buildPacket body).length := by
  rw [buildPacket_eq] at h ⊢
  have htake : (pack_u32 (4 + body.length) ++ body).take 4 = pack_u32 (4 + body.length) := by
    have h4 := length_pack_u32 (4 + body.length)
    calc (pack_u32 (4 + body.length) ++ body).take 4
        = (pack_u32 (4 + body.length) ++ body).take (pack_u32 (4 + body.length)).length := by
          rw [h4]
      _ = pack_u32 (4 + body.length) := List.take_left _ _
  rw [htake, leBytes_pack_u32]
  simp [pack_u32] at h ⊢
  omega

theorem readBytes_append (a rest : List Nat) {n : Nat} (h : a.length = n) :
    readBytes n (a ++ rest) = some (a, rest) := by
  subst h
  unfold readBytes
  rw [if_pos (by simp)]
  rw [List.take_left, List.drop_left]

theorem readCString_append (s rest : List Nat) (h : ∀ c ∈ s, c ≠ 0) :
    readCString (s ++ 0 :: rest) = some (s, rest) := by
  have htw : (s ++ 0 :: rest).takeWhile (fun a => a != 0) = s := by
    induction s with
    | nil => simp
    | cons a t ih =>
      have ha : (a != 0) = true := by
        have := h a (by simp)
        simpa using this
      simp only [List.cons_append, List.takeWhile_cons, ha, if_true]
      rw [ih (fun c hc => h c (by simp [hc]))]
  unfold readCString
  rw [htw, List.drop_left]

theorem readI32_pack (v : Int) (rest : List Nat)
    (h1 : -2147483648 ≤ v) (h2 : v < 2147483648) :
    readI32 (pack_i32 v ++ rest) = some (v, rest) := by
  have hb : 0 ≤ v % 4294967296 := Int.emod_nonneg v (by norm_num)
  have hub : v % 4294967296 < 4294967296 := Int.emod_lt_of_pos v (by norm_num)
  unfold readI32
  rw [readBytes_append _ _ (length_pack_i32 v)]
  have hval : leBytes (pack_i32 v) = (v % 4294967296).toNat := by
    rw [pack_i32, leBytes_pack_u32]
    omega
  simp only [hval]
  have hdec : decodeI32n (v % 4294967296).toNat = v := by
    unfold decodeI32n
    split <;> omega
  rw [hdec]

theorem leBytes_pack_i64 (v : Int) :
    leBytes (pack_i64 v) = (v % 18446744073709551616).toNat := by
  have hb : 0 ≤ v % 18446744073709551616 := Int.emod_nonneg v (by norm_num)
  have hub : v % 18446744073709551616 < 18446744073709551616 :=
    Int.emod_lt_of_pos v (by norm_num)
  simp [pack_i64, leBytes]
  omega

theorem readI64_pack (v : Int) (rest : List Nat)
    (h1 : -9223372036854775808 ≤ v) (h2 : v < 9223372036854775808) :
    readI64 (pack_i64 v ++ rest) = some (v, rest) := by
  have hb : 0 ≤ v % 18446744073709551616 := Int.emod_nonneg v (by norm_num)
  have hub : v % 18446744073709551616 < 18446744073709551616 :=
    Int.emod_lt_of_pos v (by norm_num)
  unfold readI64
  rw [readBytes_append _ _ (length_pack_i64 v)]
  simp only [leBytes_pack_i64]
  have hdec : decodeI64n (v % 18446744073709551616).toNat = v := by
    unfold decodeI64n
    split <;> omega
  rw [hdec]

theorem utf8EncodeChar_ne_zero (c : Nat) (hc : c ≠ 0) :
    ∀ b ∈ utf8EncodeChar c, b ≠ 0 := by
  intro b hb
  unfold utf8EncodeChar at hb
  split at hb
  · simp at hb; omega
  · split at hb
    · simp at hb; omega
    · split at hb
      · simp at hb; omega
      · simp at hb; omega

theorem utf8Encode_ne_zero (s : List Nat) (h : ∀ c ∈ s, c ≠ 0) :
    ∀ b ∈ utf8Encode s, b ≠ 0 := by
  intro b hb
  rw [utf8Encode, List.mem_flatMap] at hb
  obtain ⟨c, hc, hbc⟩ := hb
  exact utf8EncodeChar_ne_zero c (h c hc) b hbc

theorem readCStrings_flatMap (cns : List (List Nat)) (rest : List Nat)
    (h : ∀ cn ∈ cns, ∀ c ∈ cn, c ≠ 0) :
    readCStrings cns.length ((cns.flatMap fun cn => utf8Encode cn ++ [0]) ++ rest)
      = some (cns.map utf8Encode, rest) := by
  induction cns with
  | nil => simp [readCStrings]
  | cons cn t ih =>
    simp only [List.flatMap_cons, List.length_cons, List.map_cons, List.append_assoc,
      List.singleton_append, List.cons_append]
    rw [readCStrings]
    rw [readCString_append _ _ (utf8Encode_ne_zero cn (h cn (by simp)))]
    dsimp only
    simp only [List.nil_append]
    rw [ih (fun c hc => h c (by simp [hc]))]

theorem readI64s_flatMap (vs : List Int) (rest : List Nat)
    (h : ∀ v ∈ vs, -9223372036854775808 ≤ v ∧ v < 9223372036854775808) :
    readI64s vs.length ((vs.flatMap pack_i64) ++ rest) = some (vs, rest) := by
  induction vs with
  | nil => simp [readI64s]
  | cons v t ih =>
    simp only [List.flatMap_cons, List.length_cons, List.append_assoc]
    rw [readI64s]
    rw [readI64_pack v _ (h v (by simp)).1 (h v (by simp)).2]
    dsimp only
    rw [ih (fun u hu => h u (by simp [hu]))]

theorem readCStrings_flatMap_count (n : Nat) (cns : List (List Nat)) (rest : List Nat)
    (hn : n = cns.length) (h : ∀ cn ∈ cns, ∀ c ∈ cn, c ≠ 0) :
    readCStrings n ((cns.flatMap fun cn => utf8Encode cn ++ [0]) ++ rest)
      = some (cns.map utf8Encode, rest) := by
  subst hn
  exact readCStrings_flatMap cns rest h

theorem readI64s_flatMap_count (n : Nat) (vs : List Int) (rest : List Nat)
    (hn : n = vs.length)
    (h : ∀ v ∈ vs, -9223372036854775808 ≤ v ∧ v < 9223372036854775808) :
    readI64s n ((vs.flatMap pack_i64) ++ rest) = some (vs, rest) := by
  subst hn
  exact readI64s_flatMap vs rest h

theorem leBytes_packBool (b : Bool) : leBytes (packBool b) = if b then 1 else 0 := by
  cases b <;> rfl

/-- Decoding a tile packet emitted by the encoder recovers the spec's
field values: the name, the channel metadata, the absolute offset
`(x + j, y + i)` and the clipped extent. -/
theorem decodeUpdatePacket_tilePacket
    (name : List Nat) (img : NpImage) (channelNames : List (List Nat))
    (nChannels : Nat) (channelOffsets channelStrides : List Int)
    (x y : Int) (gf : Bool) (i j ht wd : Nat)
    (hname : ∀ c ∈ name, c ≠ 0)
    (hcns : ∀ cn ∈ channelNames.take nChannels, ∀ c ∈ cn, c ≠ 0)
    (hcnsLen : nChannels ≤ channelNames.length)
    (hn : (nChannels : Int) < 2147483648)
    (hoffLen : channelOffsets.length = nChannels)
    (hstrLen : channelStrides.length = nChannels)
    (hoffs : ∀ v ∈ channelOffsets, -9223372036854775808 ≤ v ∧ v < 9223372036854775808)
    (hstrs : ∀ v ∈ channelStrides, -9223372036854775808 ≤ v ∧ v < 9223372036854775808)
    (hx1 : -2147483648 ≤ x + (j : Int)) (hx2 : x + (j : Int) < 2147483648)
    (hy1 : -2147483648 ≤ y + (i : Int)) (hy2 : y + (i : Int) < 2147483648)
    (hw : (wd : Int) < 2147483648) (hh : (ht : Int) < 2147483648) :
    ∃ tl, decodeUpdatePacket (updateImageTilePacket name img channelNames nChannels
        channelOffsets channelStrides x y gf i j ht wd)
      = some ⟨tl, (if gf then 1 else 0), utf8Encode name, (nChannels : Int),
          (channelNames.take nChannels).map utf8Encode,
          x + (j : Int), y + (i : Int), (wd : Int), (ht : Int),
          channelOffsets, channelStrides, tilePixelBytes img i j ht wd⟩ := by
  have hncLen : (channelNames.take nChannels).length = nChannels := by
    simp [List.length_take]
    omega
  unfold updateImageTilePacket
  rw [buildPacket_eq]
  unfold decodeUpdatePacket
  simp only [List.append_assoc, List.singleton_append, List.cons_append, List.nil_append]
  rw [readBytes_append _ _ (length_pack_u32 _)]
  dsimp only
  rw [readBytes_append _ _ (length_pack_b _)]
  dsimp only
  rw [show pack_b IpcPacketType.UpdateImage = [6] from by decide]
  rw [if_neg (by simp)]
  rw [readBytes_append _ _ (length_packBool _)]
  dsimp only
  rw [readCString_append _ _ (utf8Encode_ne_zero name hname)]
  dsimp only
  rw [readI32_pack _ _ (by omega) hn]
  dsimp only
  rw [Int.toNat_natCast]
  rw [readCStrings_flatMap_count _ _ _ hncLen.symm hcns]
  dsimp only
  rw [readI32_pack _ _ hx1 hx2]
  dsimp only
  rw [readI32_pack _ _ hy1 hy2]
  dsimp only
  rw [readI32_pack _ _ (by omega) hw]
  dsimp only
  rw [readI32_pack _ _ (by omega) hh]
  dsimp only
  rw [readI64s_flatMap_count _ _ _ hoffLen.symm hoffs]
  dsimp only
  rw [readI64s_flatMap_count _ _ _ hstrLen.symm hstrs]
  dsimp only
  rw [leBytes_packBool]
  exact ⟨_, rfl⟩

/-!
## Tiling geometry lemmas
-/

theorem lt_ceilDiv_iff {stop step k : Nat} (hstep : 0 < step) :
    k < ceilDiv stop step ↔ step * k < stop := by
  unfold ceilDiv
  rw [show (k < (stop + step - 1) / step) ↔ (k + 1 ≤ (stop + step - 1) / step) from Iff.rfl,
    Nat.le_div_iff_mul_le hstep]
  have hmul : (k + 1) * step = step * k + step := by ring
  omega

theorem mem_pyRange {stop step v : Nat} (hstep : 0 < step) :
    v ∈ pyRange stop step ↔ ∃ k, v = step * k ∧ step * k < stop := by
  simp only [pyRange, List.mem_range', zero_add]
  constructor
  · rintro ⟨k, hk, rfl⟩
    exact ⟨k, rfl, (lt_ceilDiv_iff hstep).1 hk⟩
  · rintro ⟨k, rfl, hk⟩
    exact ⟨k, (lt_ceilDiv_iff hstep).2 hk, rfl⟩

theorem mem_updateTileOrigins {H W th tw : Nat} (hth : 0 < th) (htw : 0 < tw)
    {p : Nat × Nat} :
    p ∈ updateTileOrigins H W th tw ↔
      (∃ a, p.1 = th * a ∧ th * a < H) ∧ (∃ b, p.2 = tw * b ∧ tw * b < W) := by
  unfold updateTileOrigins
  simp only [List.mem_flatMap, List.mem_map]
  constructor
  · rintro ⟨i, hi, j, hj, rfl⟩
    exact ⟨(mem_pyRange hth).1 hi, (mem_pyRange htw).1 hj⟩
  · rintro ⟨h1, h2⟩
    exact ⟨p.1, (mem_pyRange hth).2 h1, p.2, (mem_pyRange htw).2 h2, by simp⟩

theorem length_updateTileOrigins (H W th tw : Nat) :
    (updateTileOrigins H W th tw).length = ceilDiv H th * ceilDiv W tw := by
  unfold updateTileOrigins
  rw [List.length_flatMap]
  have hmap : (pyRange H th).map (List.length ∘ fun i => (pyRange W tw).map fun j => (i, j))
      = List.replicate (ceilDiv H th) (ceilDiv W tw) := by
    rw [List.eq_replicate_iff]
    constructor
    · simp [pyRange]
    · intro b hb
      rw [List.mem_map] at hb
      obtain ⟨i, _, rfl⟩ := hb
      simp [pyRange]
  rw [hmap, List.sum_replicate, smul_eq_mul]

theorem flatMap_pair_getElem {α β : Type} (l1 : List α) (l2 : List β) (k : Nat)
    (hk : k < l1.length * l2.length) :
    (l1.flatMap fun a => l2.map fun b => (a, b))[k]?
      = Option.bind l1[k / l2.length]?
          (fun a => Option.map (fun b => (a, b)) l2[k % l2.length]?) := by
  induction l1 generalizing k with
  | nil => simp at hk
  | cons a t ih =>
    have hlen : 0 < l2.length := by
      by_contra hc
      push_neg at hc
      interval_cases hl : l2.length
      omega
    simp only [List.flatMap_cons, List.getElem?_append]
    by_cases hcase : k < l2.length
    · rw [if_pos (by simpa using hcase)]
      have hdiv : k / l2.length = 0 := Nat.div_eq_of_lt hcase
      have hmod : k % l2.length = k := Nat.mod_eq_of_lt hcase
      rw [hdiv, hmod]
      simp [List.getElem?_map]
    · push_neg at hcase
      rw [if_neg (by simpa using Nat.not_lt.2 hcase)]
      have hk2 : k - l2.length < t.length * l2.length := by
        simp only [List.length_cons] at hk
        have : (t.length + 1) * l2.length = t.length * l2.length + l2.length := by ring
        omega
      rw [List.length_map]
      rw [ih (k - l2.length) hk2]
      have hdiv : k / l2.length = (k - l2.length) / l2.length + 1 :=
        Nat.div_eq_sub_div hlen hcase
      have hmod : k % l2.length = (k - l2.length) % l2.length :=
        (Nat.mod_eq_sub_mod hcase).symm ▸ rfl
      rw [hdiv, hmod]
      simp

theorem pyRange_getElem (stop step m : Nat) (hm : m < ceilDiv stop step) :
    (pyRange stop step)[m]? = some (step * m) := by
  unfold pyRange
  rw [List.getElem?_range' _ _ hm]
  simp

/-- The `k`-th origin visited by the nested tiling loops, in closed form:
row `k / (number of tile columns)`, column `k % (number of tile columns)` —
the row-major traversal order. -/
theorem updateTileOrigins_getElem (H W th tw k : Nat)
    (hk : k < ceilDiv H th * ceilDiv W tw) :
    (updateTileOrigins H W th tw)[k]?
      = some (th * (k / ceilDiv W tw), tw * (k % ceilDiv W tw)) := by
  unfold updateTileOrigins
  have h1 : (pyRange H th).length = ceilDiv H th := by simp [pyRange]
  have h2 : (pyRange W tw).length = ceilDiv W tw := by simp [pyRange]
  rw [flatMap_pair_getElem _ _ k (by rw [h1, h2]; exact hk)]
  have hw : 0 < ceilDiv W tw := by
    by_contra hc
    push_neg at hc
    interval_cases hcw : ceilDiv W tw
    omega
  rw [h2]
  rw [pyRange_getElem _ _ _ (by
    rw [Nat.div_lt_iff_lt_mul hw]
    exact hk)]
  rw [pyRange_getElem _ _ _ (Nat.mod_lt _ hw)]
  simp

/-- With tiling enabled and enough channel names, `update_image` emits one
packet per 128×128 tile origin. -/
theorem updateImagePackets_ok_tiled (name : List Nat) (img : NpImage)
    (cns : List (List Nat)) (x y : Int) (gf : Bool)
    (hn : ¬ cns.length < nChannelsOf img) :
    updateImagePackets name img cns x y gf true
      = .ok ((updateTileOrigins img.shape0 img.shape1 128 128).map fun p =>
          updateImageTilePacket name img cns (nChannelsOf img)
            ((List.range (nChannelsOf img)).map Int.ofNat)
            (List.replicate (nChannelsOf img) (Int.ofNat (nChannelsOf img)))
            x y gf p.1 p.2
            (tileExtent img.shape0 p.1 128) (tileExtent img.shape1 p.2 128)) := by
  unfold updateImagePackets
  simp [hn]

/-- With tiling disabled, positive buffer dimensions (so no loop step is
zero) and enough channel names, the tile size is the full buffer shape. -/
theorem updateImagePackets_ok_untiled (name : List Nat) (img : NpImage)
    (cns : List (List Nat)) (x y : Int) (gf : Bool)
    (hn : ¬ cns.length < nChannelsOf img)
    (hH : 0 < img.shape0) (hW : 0 < img.shape1) :
    updateImagePackets name img cns x y gf false
      = .ok ((updateTileOrigins img.shape0 img.shape1 img.shape0 img.shape1).map fun p =>
          updateImageTilePacket name img cns (nChannelsOf img)
            ((List.range (nChannelsOf img)).map Int.ofNat)
            (List.replicate (nChannelsOf img) (Int.ofNat (nChannelsOf img)))
            x y gf p.1 p.2
            (tileExtent img.shape0 p.1 img.shape0) (tileExtent img.shape1 p.2 img.shape1)) := by
  unfold updateImagePackets
  have hz : ¬ (img.shape0 = 0 ∨ (img.shape1 = 0 ∧ 0 < img.shape0)) := by omega
  simp [hn, hz]

/-- With too few channel names, `update_image` raises before building any
packet. -/
theorem updateImagePackets_error (name : List Nat) (img : NpImage)
    (cns : List (List Nat)) (x y : Int) (gf pt : Bool)
    (hn : cns.length < nChannelsOf img) :
    updateImagePackets name img cns x y gf pt = .error .notEnoughChannelNames := by
  unfold updateImagePackets
  simp [hn]

/-- With tiling disabled and a zero buffer dimension, `update_image`
raises Python's `ValueError` from `range()` with a zero step, before any
packet is built or sent. -/
theorem updateImagePackets_valueError (name : List Nat) (img : NpImage)
    (cns : List (List Nat)) (x y : Int) (gf : Bool)
    (hn : ¬ cns.length < nChannelsOf img)
    (hz : img.shape0 = 0 ∨ (img.shape1 = 0 ∧ 0 < img.shape0)) :
    updateImagePackets name img cns x y gf false = .error .valueError := by
  unfold updateImagePackets
  simp [hn, hz]

/-!
## Claim theorems
-/

/-- C1: For every packet built by any encoder operation (`open_image`,
`reload_image`, `close_image`, `create_image`, each tile of `update_image`,
`update_vector_graphics`), the first 4 bytes of the emitted buffer, read as
a little-endian uint32, equal the total byte length of that buffer
including the 4-byte length field itself. -/
theorem C1_length_prefix :
    (∀ path sel gf, (openImagePacket path sel gf).length < 4294967296 →
      leBytes ((openImagePacket path sel gf).take 4) = (openImagePacket path sel gf).length) ∧
    (∀ name gf, (reloadImagePacket name gf).length < 4294967296 →
      leBytes ((reloadImagePacket name gf).take 4) = (reloadImagePacket name gf).length) ∧
    (∀ name, (closeImagePacket name).length < 4294967296 →
      leBytes ((closeImagePacket name).take 4) = (closeImagePacket name).length) ∧
    (∀ name w h cns gf p, createImagePacket name w h cns gf = .ok p →
      p.length < 4294967296 → leBytes (p.take 4) = p.length) ∧
    (∀ name img cns x y gf pt ps, updateImagePackets name img cns x y gf pt = .ok ps →
      ∀ p ∈ ps, p.length < 4294967296 → leBytes (p.take 4) = p.length) ∧
    (∀ name cmds app gf, (updateVectorGraphicsPacket name cmds app gf).length < 4294967296 →
      leBytes ((updateVectorGraphicsPacket name cmds app gf).take 4)
        = (updateVectorGraphicsPacket name cmds app gf).length) := by
  refine ⟨?_, ?_, ?_, ?_, ?_, ?_⟩
  · intro path sel gf hlen
    exact buildPacket_lengthPrefix _ hlen
  · intro name gf hlen
    exact buildPacket_lengthPrefix _ hlen
  · intro name hlen
    exact buildPacket_lengthPrefix _ hlen
  · intro name w h cns gf p hok hlen
    unfold createImagePacket at hok
    split at hok
    · cases hok
      exact buildPacket_lengthPrefix _ hlen
    · cases hok
  · intro name img cns x y gf pt ps hok p hp hlen
    by_cases hc : cns.length < nChannelsOf img
    · rw [updateImagePackets_error name img cns x y gf pt hc] at hok
      cases hok
    · cases pt
      · by_cases hz : img.shape0 = 0 ∨ (img.shape1 = 0 ∧ 0 < img.shape0)
        · rw [updateImagePackets_valueError name img cns x y gf hc hz] at hok
          cases hok
        · rw [updateImagePackets_ok_untiled name img cns x y gf hc
            (by omega) (by omega)] at hok
          cases hok
          rw [List.mem_map] at hp
          obtain ⟨q, _, rfl⟩ := hp
          exact buildPacket_lengthPrefix _ hlen
      · rw [updateImagePackets_ok_tiled name img cns x y gf hc] at hok
        cases hok
        rw [List.mem_map] at hp
        obtain ⟨q, _, rfl⟩ := hp
        exact buildPacket_lengthPrefix _ hlen
  · intro name cmds app gf hlen
    exact buildPacket_lengthPrefix _ hlen

theorem C1_length_prefix_witness :
    ((openImagePacket [116] [] true).length < 4294967296 ∧
      leBytes ((openImagePacket [116] [] true).take 4) = (openImagePacket [116] [] true).length) ∧
    (updateImagePackets [116] ⟨1, 1, none, fun _ _ _ => 1⟩ [[82]] 0 0 false true
        = .ok [updateImageTilePacket [116] ⟨1, 1, none, fun _ _ _ => 1⟩ [[82]] 1 [0] [1]
            0 0 false 0 0 1 1] ∧
      ∀ p ∈ [updateImageTilePacket [116] ⟨1, 1, none, fun _ _ _ => 1⟩ [[82]] 1 [0] [1]
          0 0 false 0 0 1 1], p.length < 4294967296 → leBytes (p.take 4) = p.length) := by
  have hok : updateImagePackets [116] ⟨1, 1, none, fun _ _ _ => 1⟩ [[82]] 0 0 false true
      = .ok [updateImageTilePacket [116] ⟨1, 1, none, fun _ _ _ => 1⟩ [[82]] 1 [0] [1]
          0 0 false 0 0 1 1] := rfl
  exact ⟨⟨by decide, C1_length_prefix.1 [116] [] true (by decide)⟩,
    ⟨hok,
     C1_length_prefix.2.2.2.2.1 [116] ⟨1, 1, none, fun _ _ _ => 1⟩ [[82]] 0 0 false true
       _ hok⟩⟩

/-- C4: For every `update_image` call on an open session where
`len(channel_names)` is strictly less than the channel count derived from
the buffer, the call fails with the ConfigurationError
("Not enough channel names provided") and no bytes are sent to the socket
(the session state, including the transcript of sent buffers, is returned
unchanged). -/
theorem C4_not_enough_channel_names (s : Ipc) (sk : MockSocket) (name : List Nat)
    (img : NpImage) (cns : List (List Nat)) (x y : Int) (gf pt : Bool)
    (hs : s.socket = some sk) (hn : cns.length < nChannelsOf img) :
    Ipc.update_image s name img cns x y gf pt = (.error .notEnoughChannelNames, s) := by
  unfold Ipc.update_image
  rw [hs]
  have hpk : updateImagePackets name img cns x y gf pt = .error .notEnoughChannelNames := by
    unfold updateImagePackets
    simp [hn]
  rw [hpk]

theorem C4_not_enough_channel_names_witness :
    (Ipc.mk [] 14158 (some ⟨false, []⟩)).socket = some ⟨false, []⟩ ∧
    ([[82]] : List (List Nat)).length < nChannelsOf ⟨1, 1, some 2, fun _ _ _ => 0⟩ ∧
    Ipc.update_image (Ipc.mk [] 14158 (some ⟨false, []⟩)) [78]
        ⟨1, 1, some 2, fun _ _ _ => 0⟩ [[82]] 0 0 false true
      = (.error .notEnoughChannelNames, Ipc.mk [] 14158 (some ⟨false, []⟩)) :=
  ⟨rfl, by decide,
   C4_not_enough_channel_names (Ipc.mk [] 14158 (some ⟨false, []⟩)) ⟨false, []⟩ [78]
     ⟨1, 1, some 2, fun _ _ _ => 0⟩ [[82]] 0 0 false true rfl (by decide)⟩

/-- C5: Encoding `create_image("Test", 200, 300, ["R","G","B"])` produces
one packet whose type tag is 4, whose width field is 200, height field 300,
channel-count field 3, followed by the bytes of "R", NUL, "G", NUL, "B",
NUL, with all integer fields little-endian and the NUL-terminated name
preceding them.  (The byte list below is segmented as
length ++ tag ++ grabFocus ++ name ++ width ++ height ++ channelCount ++
channelNames.) -/
theorem C5_create_image_roundtrip :
    createImagePacket [84, 101, 115, 116] 200 300 [[82], [71], [66]] true
      = .ok ([29, 0, 0, 0] ++ [4] ++ [1] ++ [84, 101, 115, 116, 0]
          ++ [200, 0, 0, 0] ++ [44, 1, 0, 0] ++ [3, 0, 0, 0]
          ++ [82, 0, 71, 0, 66, 0]) := by
  rfl

set_option maxRecDepth 100000 in
/-- C6: Encoding the command list `[vg_begin_path(), vg_rect(0,0,64,64),
vg_stroke()]` via `update_vector_graphics` produces a packet whose
command-count field (little-endian uint32) is 3, followed by tag byte 6
with no parameter bytes, then tag byte 18 followed by exactly four
little-endian float32 values 0, 0, 64, 64, then tag byte 5 with no
parameter bytes. -/
theorem C6_vg_command_stream (name : List Nat) (append grabFocus : Bool) :
    updateVectorGraphicsPacket name [vg_begin_path, vg_rect 0 0 64 64, vg_stroke] append grabFocus
      = buildPacket (pack_b 8 ++ packBool grabFocus ++ utf8Encode name ++ [0] ++ packBool append
          ++ [3, 0, 0, 0]
          ++ ([6] ++ ([18] ++ [0, 0, 0, 0] ++ [0, 0, 0, 0] ++ [0, 0, 128, 66] ++ [0, 0, 128, 66]) ++ [5])) := by
  have hcount : pack_u32 ([vg_begin_path, vg_rect 0 0 64 64, vg_stroke] : List VgCommand).length
      = [3, 0, 0, 0] := by decide
  have hcmds : ([vg_begin_path, vg_rect 0 0 64 64, vg_stroke] : List VgCommand).flatMap vgCommandBytes
      = [6] ++ ([18] ++ [0, 0, 0, 0] ++ [0, 0, 0, 0] ++ [0, 0, 128, 66] ++ [0, 0, 128, 66]) ++ [5] := by
    decide
  unfold updateVectorGraphicsPacket
  rw [hcount, hcmds]
  rfl

/-- C2: For every image buffer of positive height H and width W,
`update_image` with `perform_tiling` enabled and tile size T = 128 emits
exactly `ceil(H/T) * ceil(W/T)` tile packets whose rectangles are pairwise
disjoint and whose union is exactly `[0,W)×[0,H)`; every boundary tile's
width (resp. height) equals the dimension mod T when that remainder is
non-zero, and T otherwise. -/
theorem C2_tiling_partition (name : List Nat) (img : NpImage)
    (cns : List (List Nat)) (x y : Int) (gf : Bool)
    (hH : 0 < img.shape0) (hW : 0 < img.shape1)
    (hn : ¬ cns.length < nChannelsOf img) :
    ∃ ps, updateImagePackets name img cns x y gf true = .ok ps ∧
      ps.length = ceilDiv img.shape0 128 * ceilDiv img.shape1 128 ∧
      (∀ r c, r < img.shape0 → c < img.shape1 →
        ∃! p : Nat × Nat, p ∈ updateTileOrigins img.shape0 img.shape1 128 128 ∧
          p.1 ≤ r ∧ r < p.1 + tileExtent img.shape0 p.1 128 ∧
          p.2 ≤ c ∧ c < p.2 + tileExtent img.shape1 p.2 128) ∧
      (∀ p ∈ updateTileOrigins img.shape0 img.shape1 128 128,
        p.1 + tileExtent img.shape0 p.1 128 ≤ img.shape0 ∧
        p.2 + tileExtent img.shape1 p.2 128 ≤ img.shape1) ∧
      (∀ p ∈ updateTileOrigins img.shape0 img.shape1 128 128,
        ∀ q ∈ updateTileOrigins img.shape0 img.shape1 128 128, p ≠ q →
        ∀ r c, ¬((p.1 ≤ r ∧ r < p.1 + tileExtent img.shape0 p.1 128 ∧
                  p.2 ≤ c ∧ c < p.2 + tileExtent img.shape1 p.2 128) ∧
                 (q.1 ≤ r ∧ r < q.1 + tileExtent img.shape0 q.1 128 ∧
                  q.2 ≤ c ∧ c < q.2 + tileExtent img.shape1 q.2 128))) ∧
      (∀ p ∈ updateTileOrigins img.shape0 img.shape1 128 128,
        tileExtent img.shape0 p.1 128
          = (if p.1 + 128 ≤ img.shape0 then 128 else img.shape0 % 128) ∧
        tileExtent img.shape1 p.2 128
          = (if p.2 + 128 ≤ img.shape1 then 128 else img.shape1 % 128) ∧
        (img.shape0 < p.1 + 128 → img.shape0 % 128 ≠ 0) ∧
        (img.shape1 < p.2 + 128 → img.shape1 % 128 ≠ 0)) := by
  refine ⟨_, updateImagePackets_ok_tiled name img cns x y gf hn, ?_, ?_, ?_, ?_, ?_⟩
  · rw [List.length_map, length_updateTileOrigins]
  · intro r c hr hc
    refine ⟨(128 * (r / 128), 128 * (c / 128)), ⟨?_, ?_, ?_, ?_, ?_⟩, ?_⟩
    · rw [mem_updateTileOrigins (by norm_num) (by norm_num)]
      exact ⟨⟨r / 128, rfl, by omega⟩, ⟨c / 128, rfl, by omega⟩⟩
    · omega
    · unfold tileExtent
      omega
    · omega
    · unfold tileExtent
      omega
    · rintro ⟨i, j⟩ ⟨hmem, hi1, hi2, hj1, hj2⟩
      rw [mem_updateTileOrigins (by norm_num) (by norm_num)] at hmem
      obtain ⟨⟨a, ha, haH⟩, ⟨b, hb, hbW⟩⟩ := hmem
      unfold tileExtent at hi2 hj2
      simp only at ha hb hi1 hi2 hj1 hj2
      subst ha
      subst hb
      have h1 : a = r / 128 := by omega
      have h2 : b = c / 128 := by omega
      rw [h1, h2]
  · intro p hp
    rw [mem_updateTileOrigins (by norm_num) (by norm_num)] at hp
    obtain ⟨⟨a, ha, haH⟩, ⟨b, hb, hbW⟩⟩ := hp
    unfold tileExtent
    omega
  · intro p hp q hq hne r c
    rw [mem_updateTileOrigins (by norm_num) (by norm_num)] at hp hq
    obtain ⟨⟨a, ha, haH⟩, ⟨b, hb, hbW⟩⟩ := hp
    obtain ⟨⟨a2, ha2, ha2H⟩, ⟨b2, hb2, hb2W⟩⟩ := hq
    rintro ⟨⟨h1, h2, h3, h4⟩, ⟨h5, h6, h7, h8⟩⟩
    unfold tileExtent at h2 h4 h6 h8
    apply hne
    have hfst : p.1 = q.1 := by omega
    have hsnd : p.2 = q.2 := by omega
    exact Prod.ext hfst hsnd
  · intro p hp
    rw [mem_updateTileOrigins (by norm_num) (by norm_num)] at hp
    obtain ⟨⟨a, ha, haH⟩, ⟨b, hb, hbW⟩⟩ := hp
    unfold tileExtent
    refine ⟨?_, ?_, ?_, ?_⟩ <;> [skip; skip; omega; omega]
    · split <;> omega
    · split <;> omega

theorem C2_tiling_partition_witness :
    (0 < (130 : Nat) ∧ 0 < (200 : Nat) ∧
      ¬ ([[82]] : List (List Nat)).length < nChannelsOf ⟨130, 200, none, fun _ _ _ => 0⟩) ∧
    (∃ ps, updateImagePackets [110] ⟨130, 200, none, fun _ _ _ => 0⟩ [[82]] 0 0 false true
        = .ok ps ∧
      ps.length = ceilDiv 130 128 * ceilDiv 200 128 ∧
      (∀ r c, r < (NpImage.mk 130 200 none (fun _ _ _ => 0)).shape0 →
        c < (NpImage.mk 130 200 none (fun _ _ _ => 0)).shape1 →
        ∃! p : Nat × Nat, p ∈ updateTileOrigins 130 200 128 128 ∧
          p.1 ≤ r ∧ r < p.1 + tileExtent 130 p.1 128 ∧
          p.2 ≤ c ∧ c < p.2 + tileExtent 200 p.2 128) ∧
      (∀ p ∈ updateTileOrigins 130 200 128 128,
        p.1 + tileExtent 130 p.1 128 ≤ 130 ∧ p.2 + tileExtent 200 p.2 128 ≤ 200) ∧
      (∀ p ∈ updateTileOrigins 130 200 128 128, ∀ q ∈ updateTileOrigins 130 200 128 128,
        p ≠ q → ∀ r c,
        ¬((p.1 ≤ r ∧ r < p.1 + tileExtent 130 p.1 128 ∧
           p.2 ≤ c ∧ c < p.2 + tileExtent 200 p.2 128) ∧
          (q.1 ≤ r ∧ r < q.1 + tileExtent 130 q.1 128 ∧
           q.2 ≤ c ∧ c < q.2 + tileExtent 200 q.2 128))) ∧
      (∀ p ∈ updateTileOrigins 130 200 128 128,
        tileExtent 130 p.1 128 = (if p.1 + 128 ≤ 130 then 128 else 130 % 128) ∧
        tileExtent 200 p.2 128 = (if p.2 + 128 ≤ 200 then 128 else 200 % 128) ∧
        (130 < p.1 + 128 → (130 : Nat) % 128 ≠ 0) ∧
        (200 < p.2 + 128 → (200 : Nat) % 128 ≠ 0))) :=
  ⟨⟨by decide, by decide, by decide⟩,
   C2_tiling_partition [110] ⟨130, 200, none, fun _ _ _ => 0⟩ [[82]] 0 0 false
     (by decide) (by decide) (by decide)⟩

theorem rangeOffsets_bounds (n : Nat) (hn : (n : Int) < 2147483648) :
    ∀ v ∈ (List.range n).map Int.ofNat,
      -9223372036854775808 ≤ v ∧ v < 9223372036854775808 := by
  intro v hv
  simp only [List.mem_map, List.mem_range] at hv
  obtain ⟨m, hm, rfl⟩ := hv
  have hcast : (Int.ofNat m) = (m : Int) := rfl
  rw [hcast]
  constructor <;> omega

theorem replicateStrides_bounds (n : Nat) (hn : (n : Int) < 2147483648) :
    ∀ v ∈ List.replicate n (Int.ofNat n),
      -9223372036854775808 ≤ v ∧ v < 9223372036854775808 := by
  intro v hv
  have hv2 := List.eq_of_mem_replicate hv
  subst hv2
  have hcast : (Int.ofNat n) = (n : Int) := rfl
  rw [hcast]
  constructor <;> omega

/-- C3: For every `update_image` call, the tile packets are emitted in
row-major order (all column origins of one tile row before the next tile
row), and the x and y fields of each tile's packet equal
`targetX + tileColumnOrigin` and `targetY + tileRowOrigin`: decoding the
`k`-th emitted packet yields x-field `x + 128 * (k mod tileColumns)` and
y-field `y + 128 * (k div tileColumns)`, i.e. the origins advance through
all columns of a tile row before the next row. -/
theorem C3_row_major_order (name : List Nat) (img : NpImage)
    (cns : List (List Nat)) (x y : Int) (gf : Bool)
    (hname : ∀ c ∈ name, c ≠ 0)
    (hcns : ∀ cn ∈ cns.take (nChannelsOf img), ∀ c ∈ cn, c ≠ 0)
    (hn : ¬ cns.length < nChannelsOf img)
    (hnc : (nChannelsOf img : Int) < 2147483648)
    (hx1 : -2147483648 ≤ x) (hx2 : x + (img.shape1 : Int) ≤ 2147483648)
    (hy1 : -2147483648 ≤ y) (hy2 : y + (img.shape0 : Int) ≤ 2147483648) :
    ∃ ps, updateImagePackets name img cns x y gf true = .ok ps ∧
      ∀ k, k < ps.length →
        ∃ p flds, ps[k]? = some p ∧ decodeUpdatePacket p = some flds ∧
          flds.x = x + ((128 * (k % ceilDiv img.shape1 128) : Nat) : Int) ∧
          flds.y = y + ((128 * (k / ceilDiv img.shape1 128) : Nat) : Int) := by
  refine ⟨_, updateImagePackets_ok_tiled name img cns x y gf hn, ?_⟩
  intro k hk
  rw [List.length_map, length_updateTileOrigins] at hk
  have hidx := updateTileOrigins_getElem img.shape0 img.shape1 128 128 k hk
  have hcw : 0 < ceilDiv img.shape1 128 := by
    rcases Nat.eq_zero_or_pos (ceilDiv img.shape1 128) with h0 | h0
    · rw [h0, Nat.mul_zero] at hk
      omega
    · exact h0
  have hjW : 128 * (k % ceilDiv img.shape1 128) < img.shape1 :=
    (lt_ceilDiv_iff (by norm_num)).1 (Nat.mod_lt _ hcw)
  have hiH : 128 * (k / ceilDiv img.shape1 128) < img.shape0 :=
    (lt_ceilDiv_iff (by norm_num)).1 ((Nat.div_lt_iff_lt_mul hcw).2 hk)
  rw [List.getElem?_map, hidx]
  simp only [Option.map_some']
  obtain ⟨tl, hdec⟩ := decodeUpdatePacket_tilePacket name img cns (nChannelsOf img)
      ((List.range (nChannelsOf img)).map Int.ofNat)
      (List.replicate (nChannelsOf img) (Int.ofNat (nChannelsOf img)))
      x y gf
      (128 * (k / ceilDiv img.shape1 128)) (128 * (k % ceilDiv img.shape1 128))
      (tileExtent img.shape0 (128 * (k / ceilDiv img.shape1 128)) 128)
      (tileExtent img.shape1 (128 * (k % ceilDiv img.shape1 128)) 128)
      hname hcns (by omega) hnc (by simp) (by simp)
      (rangeOffsets_bounds _ hnc) (replicateStrides_bounds _ hnc)
      (by omega) (by omega) (by omega) (by omega)
      (by unfold tileExtent; omega) (by unfold tileExtent; omega)
  exact ⟨_, _, rfl, hdec, rfl, rfl⟩

theorem C3_row_major_order_witness :
    ((∀ c ∈ ([110] : List Nat), c ≠ 0) ∧
      (∀ cn ∈ ([[82]] : List (List Nat)).take (nChannelsOf ⟨130, 200, none, fun _ _ _ => 0⟩),
        ∀ c ∈ cn, c ≠ 0) ∧
      ¬ ([[82]] : List (List Nat)).length < nChannelsOf ⟨130, 200, none, fun _ _ _ => 0⟩ ∧
      ((nChannelsOf ⟨130, 200, none, fun _ _ _ => 0⟩ : Int) < 2147483648)) ∧
    (∃ ps, updateImagePackets [110] ⟨130, 200, none, fun _ _ _ => 0⟩ [[82]] 5 7 false true
        = .ok ps ∧
      ∀ k, k < ps.length →
        ∃ p flds, ps[k]? = some p ∧ decodeUpdatePacket p = some flds ∧
          flds.x = 5 + ((128 * (k % ceilDiv 200 128) : Nat) : Int) ∧
          flds.y = 7 + ((128 * (k / ceilDiv 200 128) : Nat) : Int)) :=
  ⟨⟨by decide, by decide, by decide, by decide⟩,
   C3_row_major_order [110] ⟨130, 200, none, fun _ _ _ => 0⟩ [[82]] 5 7 false
     (by decide) (by decide) (by decide) (by decide)
     (by decide) (by decide) (by decide) (by decide)⟩

theorem pyRange_self (n : Nat) (hn : 0 < n) : pyRange n n = [0] := by
  unfold pyRange
  have h1 : ceilDiv n n = 1 := by
    unfold ceilDiv
    have h2 : n + n - 1 = (n - 1) + n := by omega
    rw [h2, Nat.add_div_right _ hn, Nat.div_eq_of_lt (by omega)]
  rw [h1]
  simp [List.range']

theorem updateTileOrigins_self (H W : Nat) (hH : 0 < H) (hW : 0 < W) :
    updateTileOrigins H W H W = [(0, 0)] := by
  unfold updateTileOrigins
  rw [pyRange_self H hH, pyRange_self W hW]
  rfl

/-- C9: For every image buffer of positive height and width, `update_image`
with `perform_tiling` disabled emits exactly one tile packet whose width
and height fields equal the full buffer's width and height and whose x and
y fields equal the call's x and y arguments. -/
theorem C9_untiled_single_packet (name : List Nat) (img : NpImage)
    (cns : List (List Nat)) (x y : Int) (gf : Bool)
    (hH : 0 < img.shape0) (hW : 0 < img.shape1)
    (hname : ∀ c ∈ name, c ≠ 0)
    (hcns : ∀ cn ∈ cns.take (nChannelsOf img), ∀ c ∈ cn, c ≠ 0)
    (hn : ¬ cns.length < nChannelsOf img)
    (hnc : (nChannelsOf img : Int) < 2147483648)
    (hx1 : -2147483648 ≤ x) (hx2 : x < 2147483648)
    (hy1 : -2147483648 ≤ y) (hy2 : y < 2147483648)
    (hwr : (img.shape1 : Int) < 2147483648) (hhr : (img.shape0 : Int) < 2147483648) :
    ∃ p flds, updateImagePackets name img cns x y gf false = .ok [p] ∧
      decodeUpdatePacket p = some flds ∧
      flds.x = x ∧ flds.y = y ∧
      flds.width = (img.shape1 : Int) ∧ flds.height = (img.shape0 : Int) := by
  have hok := updateImagePackets_ok_untiled name img cns x y gf hn hH hW
  rw [updateTileOrigins_self _ _ hH hW] at hok
  simp only [List.map_cons, List.map_nil] at hok
  have hext0 : tileExtent img.shape0 0 img.shape0 = img.shape0 := by
    unfold tileExtent
    omega
  have hext1 : tileExtent img.shape1 0 img.shape1 = img.shape1 := by
    unfold tileExtent
    omega
  obtain ⟨tl, hdec⟩ := decodeUpdatePacket_tilePacket name img cns (nChannelsOf img)
      ((List.range (nChannelsOf img)).map Int.ofNat)
      (List.replicate (nChannelsOf img) (Int.ofNat (nChannelsOf img)))
      x y gf 0 0 (tileExtent img.shape0 0 img.shape0) (tileExtent img.shape1 0 img.shape1)
      hname hcns (by omega) hnc (by simp) (by simp)
      (rangeOffsets_bounds _ hnc) (replicateStrides_bounds _ hnc)
      (by omega) (by omega) (by omega) (by omega)
      (by rw [hext1]; omega) (by rw [hext0]; omega)
  refine ⟨_, _, hok, hdec, by simp, by simp, by simp [hext1], by simp [hext0]⟩

theorem C9_untiled_single_packet_witness :
    (0 < (3 : Nat) ∧ 0 < (5 : Nat) ∧
      (∀ c ∈ ([110] : List Nat), c ≠ 0) ∧
      ¬ ([[82], [71]] : List (List Nat)).length < nChannelsOf ⟨3, 5, some 2, fun _ _ _ => 0⟩) ∧
    (∃ p flds, updateImagePackets [110] ⟨3, 5, some 2, fun _ _ _ => 0⟩ [[82], [71]] 4 9 true false
        = .ok [p] ∧
      decodeUpdatePacket p = some flds ∧
      flds.x = 4 ∧ flds.y = 9 ∧
      flds.width = ((5 : Nat) : Int) ∧ flds.height = ((3 : Nat) : Int)) :=
  ⟨⟨by decide, by decide, by decide, by decide⟩,
   C9_untiled_single_packet [110] ⟨3, 5, some 2, fun _ _ _ => 0⟩ [[82], [71]] 4 9 true
     (by decide) (by decide) (by decide) (by decide) (by decide) (by decide)
     (by decide) (by decide) (by decide) (by decide) (by decide) (by decide)⟩

/-- Every tile packet emitted by `update_image` decodes back to the
channel metadata the tiler chose: channel count `n` derived from the
buffer, the first `n` channel names UTF-8-encoded, offsets `[0..n-1]` and
strides `[n,...,n]`. -/
theorem updateImagePackets_decode_fields (name : List Nat) (img : NpImage)
    (cns : List (List Nat)) (x y : Int) (gf pt : Bool)
    (hname : ∀ c ∈ name, c ≠ 0)
    (hcns : ∀ cn ∈ cns.take (nChannelsOf img), ∀ c ∈ cn, c ≠ 0)
    (hn : ¬ cns.length < nChannelsOf img)
    (hnc : (nChannelsOf img : Int) < 2147483648)
    (hH : 0 < img.shape0) (hW : 0 < img.shape1)
    (hx1 : -2147483648 ≤ x) (hx2 : x + (img.shape1 : Int) ≤ 2147483648)
    (hy1 : -2147483648 ≤ y) (hy2 : y + (img.shape0 : Int) ≤ 2147483648)
    (hwr : (img.shape1 : Int) < 2147483648) (hhr : (img.shape0 : Int) < 2147483648) :
    ∀ ps, updateImagePackets name img cns x y gf pt = .ok ps →
      ∀ p ∈ ps, ∃ flds, decodeUpdatePacket p = some flds ∧
        flds.nChannels = (nChannelsOf img : Int) ∧
        flds.channelNameBytes = (cns.take (nChannelsOf img)).map utf8Encode ∧
        flds.channelOffsets = (List.range (nChannelsOf img)).map Int.ofNat ∧
        flds.channelStrides = List.replicate (nChannelsOf img) (Int.ofNat (nChannelsOf img)) := by
  intro ps hok p hp
  cases pt
  · rw [updateImagePackets_ok_untiled name img cns x y gf hn hH hW] at hok
    cases hok
    rw [List.mem_map] at hp
    obtain ⟨q, hq, rfl⟩ := hp
    rw [updateTileOrigins_self _ _ hH hW] at hq
    simp only [List.mem_singleton] at hq
    subst hq
    have hext0 : tileExtent img.shape0 0 img.shape0 = img.shape0 := by
      unfold tileExtent
      omega
    have hext1 : tileExtent img.shape1 0 img.shape1 = img.shape1 := by
      unfold tileExtent
      omega
    obtain ⟨tl, hdec⟩ := decodeUpdatePacket_tilePacket name img cns (nChannelsOf img)
        ((List.range (nChannelsOf img)).map Int.ofNat)
        (List.replicate (nChannelsOf img) (Int.ofNat (nChannelsOf img)))
        x y gf 0 0 (tileExtent img.shape0 0 img.shape0) (tileExtent img.shape1 0 img.shape1)
        hname hcns (by omega) hnc (by simp) (by simp)
        (rangeOffsets_bounds _ hnc) (replicateStrides_bounds _ hnc)
        (by omega) (by omega) (by omega) (by omega)
        (by rw [hext1]; omega) (by rw [hext0]; omega)
    exact ⟨_, hdec, rfl, rfl, rfl, rfl⟩
  · rw [updateImagePackets_ok_tiled name img cns x y gf hn] at hok
    cases hok
    rw [List.mem_map] at hp
    obtain ⟨q, hq, rfl⟩ := hp
    rw [mem_updateTileOrigins (by norm_num) (by norm_num)] at hq
    obtain ⟨⟨a, ha, haH⟩, ⟨b, hb, hbW⟩⟩ := hq
    obtain ⟨tl, hdec⟩ := decodeUpdatePacket_tilePacket name img cns (nChannelsOf img)
        ((List.range (nChannelsOf img)).map Int.ofNat)
        (List.replicate (nChannelsOf img) (Int.ofNat (nChannelsOf img)))
        x y gf q.1 q.2 (tileExtent img.shape0 q.1 128) (tileExtent img.shape1 q.2 128)
        hname hcns (by omega) hnc (by simp) (by simp)
        (rangeOffsets_bounds _ hnc) (replicateStrides_bounds _ hnc)
        (by omega) (by omega) (by omega) (by omega)
        (by unfold tileExtent; omega) (by unfold tileExtent; omega)
    exact ⟨_, hdec, rfl, rfl, rfl, rfl⟩

/-- C10: For every `update_image` call where `len(channel_names)` is
strictly greater than the buffer-derived channel count `n`, the encoded
channelCount field equals `n` (not `len(channel_names)`), only the first
`n` names are serialized into each tile packet, and the extra names have no
effect on any emitted byte (the emitted packets coincide with those for the
truncated name list); the channelOffsets field is always `[0, 1, ..., n-1]`
and channelStrides is always `[n, ..., n]`. -/
theorem C10_extra_channel_names (name : List Nat) (img : NpImage)
    (cns : List (List Nat)) (x y : Int) (gf pt : Bool)
    (hname : ∀ c ∈ name, c ≠ 0)
    (hcns : ∀ cn ∈ cns.take (nChannelsOf img), ∀ c ∈ cn, c ≠ 0)
    (hgt : nChannelsOf img < cns.length)
    (hnc : (nChannelsOf img : Int) < 2147483648)
    (hH : 0 < img.shape0) (hW : 0 < img.shape1)
    (hx1 : -2147483648 ≤ x) (hx2 : x + (img.shape1 : Int) ≤ 2147483648)
    (hy1 : -2147483648 ≤ y) (hy2 : y + (img.shape0 : Int) ≤ 2147483648)
    (hwr : (img.shape1 : Int) < 2147483648) (hhr : (img.shape0 : Int) < 2147483648) :
    updateImagePackets name img cns x y gf pt
      = updateImagePackets name img (cns.take (nChannelsOf img)) x y gf pt ∧
    (∀ ps, updateImagePackets name img cns x y gf pt = .ok ps →
      ∀ p ∈ ps, ∃ flds, decodeUpdatePacket p = some flds ∧
        flds.nChannels = (nChannelsOf img : Int) ∧
        flds.channelNameBytes = (cns.take (nChannelsOf img)).map utf8Encode ∧
        flds.channelOffsets = (List.range (nChannelsOf img)).map Int.ofNat ∧
        flds.channelStrides = List.replicate (nChannelsOf img) (Int.ofNat (nChannelsOf img))) := by
  have h1 : ¬ cns.length < nChannelsOf img := by omega
  have h2 : ¬ (cns.take (nChannelsOf img)).length < nChannelsOf img := by
    simp only [List.length_take]
    omega
  have hpkt : ∀ (offs strs : List Int) (i j hT wT : Nat),
      updateImageTilePacket name img (cns.take (nChannelsOf img)) (nChannelsOf img)
          offs strs x y gf i j hT wT
        = updateImageTilePacket name img cns (nChannelsOf img) offs strs x y gf i j hT wT := by
    intro offs strs i j hT wT
    unfold updateImageTilePacket
    rw [List.take_take, min_self]
  constructor
  · cases pt
    · rw [updateImagePackets_ok_untiled name img cns x y gf h1 hH hW,
        updateImagePackets_ok_untiled name img (cns.take (nChannelsOf img)) x y gf h2 hH hW]
      simp only [hpkt]
    · rw [updateImagePackets_ok_tiled name img cns x y gf h1,
        updateImagePackets_ok_tiled name img (cns.take (nChannelsOf img)) x y gf h2]
      simp only [hpkt]
  · exact updateImagePackets_decode_fields name img cns x y gf pt hname hcns h1 hnc
      hH hW hx1 hx2 hy1 hy2 hwr hhr

theorem C10_extra_channel_names_witness :
    ((∀ c ∈ ([110] : List Nat), c ≠ 0) ∧
      nChannelsOf ⟨1, 1, none, fun _ _ _ => 0⟩ < ([[82], [71]] : List (List Nat)).length) ∧
    (updateImagePackets [110] ⟨1, 1, none, fun _ _ _ => 0⟩ [[82], [71]] 0 0 false true
        = updateImagePackets [110] ⟨1, 1, none, fun _ _ _ => 0⟩
            (([[82], [71]] : List (List Nat)).take (nChannelsOf ⟨1, 1, none, fun _ _ _ => 0⟩))
            0 0 false true ∧
      (∀ ps, updateImagePackets [110] ⟨1, 1, none, fun _ _ _ => 0⟩ [[82], [71]] 0 0 false true
          = .ok ps →
        ∀ p ∈ ps, ∃ flds, decodeUpdatePacket p = some flds ∧
          flds.nChannels = ((nChannelsOf ⟨1, 1, none, fun _ _ _ => 0⟩ : Nat) : Int) ∧
          flds.channelNameBytes
            = (([[82], [71]] : List (List Nat)).take (nChannelsOf ⟨1, 1, none, fun _ _ _ => 0⟩)).map utf8Encode ∧
          flds.channelOffsets
            = (List.range (nChannelsOf ⟨1, 1, none, fun _ _ _ => 0⟩)).map Int.ofNat ∧
          flds.channelStrides
            = List.replicate (nChannelsOf ⟨1, 1, none, fun _ _ _ => 0⟩)
                (Int.ofNat (nChannelsOf ⟨1, 1, none, fun _ _ _ => 0⟩)))) :=
  ⟨⟨by decide, by decide⟩,
   C10_extra_channel_names [110] ⟨1, 1, none, fun _ _ _ => 0⟩ [[82], [71]] 0 0 false true
     (by decide) (by decide) (by decide) (by decide) (by decide) (by decide)
     (by decide) (by decide) (by decide) (by decide) (by decide) (by decide)⟩

/-- C8 counterexample: the channel name "é" (code point 233, outside 7-bit
ASCII) passed to `update_image` is serialized into the tile packet as the
two-byte UTF-8 sequence 195, 169 followed by the NUL terminator — the
claim's assertion that channel names are always 7-bit-ASCII-encoded and
never multi-byte UTF-8 fails on this input (`update_image` uses
`bytes(channel_name, "UTF-8")`, unlike `create_image`). -/
theorem C8_ascii_claim_counterexample :
    updateImagePackets [65] ⟨1, 1, some 1, fun _ _ _ => 0⟩ [[233]] 0 0 false true
      = .ok [[51, 0, 0, 0, 6, 0, 65, 0, 1, 0, 0, 0, 195, 169, 0,
              0, 0, 0, 0, 0, 0, 0, 0, 1, 0, 0, 0, 1, 0, 0, 0, 0, 0, 0,
              0, 0, 0, 0, 0, 1, 0, 0, 0, 0, 0, 0, 0, 0, 0, 0, 0]] ∧
    (([51, 0, 0, 0, 6, 0, 65, 0, 1, 0, 0, 0, 195, 169, 0,
       0, 0, 0, 0, 0, 0, 0, 0, 1, 0, 0, 0, 1, 0, 0, 0, 0, 0, 0,
       0, 0, 0, 0, 0, 1, 0, 0, 0, 0, 0, 0, 0, 0, 0, 0, 0] : List Nat).drop 12).take 3
      = utf8Encode [233] ++ [0] ∧
    (utf8Encode [233]).length = 2 ∧
    asciiOk [233] = false := by
  refine ⟨rfl, by decide, by decide, by decide⟩

set_option maxRecDepth 4000 in
/-- C8 (amended): In `create_image`, each channel name is serialized as its
7-bit ASCII bytes followed by a single NUL terminator with no length
prefix, and a channel name containing a code point outside 7-bit ASCII
raises a UnicodeEncodeError instead of being encoded.  In `update_image`
tile packets, each channel name is serialized as its UTF-8 bytes followed
by a single NUL with no length prefix — identical to the ASCII bytes when
the name is 7-bit ASCII, but a name containing a code point outside 7-bit
ASCII is encoded as multi-byte UTF-8. -/
theorem C8_channel_name_encoding_amended :
    (∀ name w h cns gf, (∃ cn ∈ cns, asciiOk cn = false) →
      createImagePacket name w h cns gf = .error .unicodeEncodeError) ∧
    (∀ name w h cns gf, (∀ cn ∈ cns, asciiOk cn = true) →
      createImagePacket name w h cns gf
        = .ok (buildPacket ((pack_b IpcPacketType.CreateImage ++ packBool gf
            ++ utf8Encode name ++ [0] ++ pack_i32 w ++ pack_i32 h ++ pack_i32 cns.length)
            ++ cns.flatMap (fun cn => cn ++ [0])))) ∧
    (∀ s, (∀ c ∈ s, c < 128) → utf8Encode s = s) ∧
    utf8Encode [233] = [195, 169] ∧
    (∀ (name : List Nat) (img : NpImage) (cns : List (List Nat)) (x y : Int) (gf pt : Bool),
      (∀ c ∈ name, c ≠ 0) →
      (∀ cn ∈ cns.take (nChannelsOf img), ∀ c ∈ cn, c ≠ 0) →
      ¬ cns.length < nChannelsOf img →
      (nChannelsOf img : Int) < 2147483648 →
      0 < img.shape0 → 0 < img.shape1 →
      -2147483648 ≤ x → x + (img.shape1 : Int) ≤ 2147483648 →
      -2147483648 ≤ y → y + (img.shape0 : Int) ≤ 2147483648 →
      (img.shape1 : Int) < 2147483648 → (img.shape0 : Int) < 2147483648 →
      ∀ ps, updateImagePackets name img cns x y gf pt = .ok ps →
        ∀ p ∈ ps, ∃ flds, decodeUpdatePacket p = some flds ∧
          flds.channelNameBytes = (cns.take (nChannelsOf img)).map utf8Encode) := by
  refine ⟨?_, ?_, ?_, by decide, ?_⟩
  · rintro name w h cns gf ⟨cn, hcn, hbad⟩
    unfold createImagePacket
    rw [if_neg]
    intro hall
    rw [List.all_eq_true] at hall
    rw [hall cn hcn] at hbad
    cases hbad
  · intro name w h cns gf hall
    unfold createImagePacket
    rw [if_pos (List.all_eq_true.2 hall)]
  · intro s hs
    induction s with
    | nil => rfl
    | cons c t ih =>
      have hc : c < 128 := hs c (by simp)
      have ht := ih (fun d hd => hs d (by simp [hd]))
      simp only [utf8Encode, List.flatMap_cons] at ht ⊢
      rw [utf8EncodeChar, if_pos hc, ht]
      rfl
  · intro name img cns x y gf pt hname hcns hn hnc hH hW hx1 hx2 hy1 hy2 hwr hhr ps hok p hp
    obtain ⟨flds, hdec, _, hnames, _, _⟩ :=
      updateImagePackets_decode_fields name img cns x y gf pt hname hcns hn hnc
        hH hW hx1 hx2 hy1 hy2 hwr hhr ps hok p hp
    exact ⟨flds, hdec, hnames⟩

theorem C8_channel_name_encoding_amended_witness :
    ((∃ cn ∈ ([[82], [233]] : List (List Nat)), asciiOk cn = false) ∧
      createImagePacket [84] 1 1 [[82], [233]] true = .error .unicodeEncodeError) ∧
    ((∀ cn ∈ ([[82], [71]] : List (List Nat)), asciiOk cn = true) ∧
      createImagePacket [84] 1 1 [[82], [71]] true
        = .ok (buildPacket ((pack_b IpcPacketType.CreateImage ++ packBool true
            ++ utf8Encode [84] ++ [0] ++ pack_i32 1 ++ pack_i32 1
            ++ pack_i32 ([[82], [71]] : List (List Nat)).length)
            ++ ([[82], [71]] : List (List Nat)).flatMap (fun cn => cn ++ [0])))) ∧
    ((∀ c ∈ ([82, 71, 66] : List Nat), c < 128) ∧ utf8Encode [82, 71, 66] = [82, 71, 66]) :=
  ⟨⟨⟨[233], by decide, by decide⟩,
    C8_channel_name_encoding_amended.1 [84] 1 1 [[82], [233]] true ⟨[233], by decide, by decide⟩⟩,
   ⟨by decide, C8_channel_name_encoding_amended.2.1 [84] 1 1 [[82], [71]] true (by decide)⟩,
   ⟨by decide, C8_channel_name_encoding_amended.2.2.1 [82, 71, 66] (by decide)⟩⟩

/-- C7 counterexample: after opening and closing a session — the spec's
Closed state — `update_image` on a zero-row buffer raises no error at all:
`__exit__` leaves `_socket` set (only closed), so the socket-is-None guard
does not fire, the tiling loop runs zero times, and no send is attempted.
This contradicts the claim that every packet-sending operation invoked
while the session is Closed fails with an error. -/
theorem C7_closed_state_counterexample :
    Ipc.enter (Ipc.init [] 14158) = (.ok (), ⟨[], 14158, some ⟨false, []⟩⟩) ∧
    Ipc.exit ⟨[], 14158, some ⟨false, []⟩⟩ = (.ok (), ⟨[], 14158, some ⟨true, []⟩⟩) ∧
    Ipc.update_image ⟨[], 14158, some ⟨true, []⟩⟩ [78] ⟨0, 5, none, fun _ _ _ => 0⟩
        [[82]] 0 0 false true
      = (.ok (), ⟨[], 14158, some ⟨true, []⟩⟩) :=
  ⟨rfl, rfl, rfl⟩

/-- C7 (amended): Opening a Session that is already Open fails with the
StateError ("Communication already started") and leaves the existing
connection in place; closing a Session that was never opened fails with the
StateError ("Communication was not started"); every packet-sending
operation invoked on a never-opened Session fails with that StateError
before sending any bytes.  On a Session closed by `__exit__` (socket still
set, but closed), an operation fails with the transport's OSError at its
first send, with no bytes delivered — except an `update_image` with tiling
enabled whose loops produce zero tiles (zero-row buffer), which succeeds
without sending anything; with tiling disabled a zero buffer dimension
instead raises Python's ValueError (zero `range` step) before any send,
regardless of the socket's state. -/
theorem C7_session_state_errors_amended :
    (∀ s : Ipc, ∀ sk, s.socket = some sk →
      Ipc.enter s = (.error .communicationAlreadyStarted, s)) ∧
    (∀ s : Ipc, s.socket = none →
      Ipc.exit s = (.error .communicationWasNotStarted, s)) ∧
    (∀ s : Ipc, s.socket = none →
      (∀ path sel gf, Ipc.open_image s path sel gf
        = (.error .communicationWasNotStarted, s)) ∧
      (∀ name gf, Ipc.reload_image s name gf = (.error .communicationWasNotStarted, s)) ∧
      (∀ name, Ipc.close_image s name = (.error .communicationWasNotStarted, s)) ∧
      (∀ name w h cns gf, Ipc.create_image s name w h cns gf
        = (.error .communicationWasNotStarted, s)) ∧
      (∀ name img cns x y gf pt, Ipc.update_image s name img cns x y gf pt
        = (.error .communicationWasNotStarted, s)) ∧
      (∀ name cmds app gf, Ipc.update_vector_graphics s name cmds app gf
        = (.error .communicationWasNotStarted, s))) ∧
    (∀ s : Ipc, ∀ sk, s.socket = some sk → sk.closed = true →
      (∀ path sel gf, Ipc.open_image s path sel gf = (.error .osError, s)) ∧
      (∀ name gf, Ipc.reload_image s name gf = (.error .osError, s)) ∧
      (∀ name, Ipc.close_image s name = (.error .osError, s)) ∧
      (∀ name w h cns gf, cns.all asciiOk = true →
        Ipc.create_image s name w h cns gf = (.error .osError, s)) ∧
      (∀ name cmds app gf, Ipc.update_vector_graphics s name cmds app gf
        = (.error .osError, s)) ∧
      (∀ name img cns x y gf, 0 < img.shape0 → 0 < img.shape1 →
        ¬ cns.length < nChannelsOf img →
        Ipc.update_image s name img cns x y gf true = (.error .osError, s))) ∧
    (∀ s : Ipc, ∀ sk, s.socket = some sk → ∀ name img cns x y gf,
      img.shape0 = 0 → ¬ cns.length < nChannelsOf img →
      Ipc.update_image s name img cns x y gf true = (.ok (), s)) ∧
    (∀ s : Ipc, ∀ sk, s.socket = some sk → ∀ name img cns x y gf,
      (img.shape0 = 0 ∨ (img.shape1 = 0 ∧ 0 < img.shape0)) →
      ¬ cns.length < nChannelsOf img →
      Ipc.update_image s name img cns x y gf false = (.error .valueError, s)) := by
  have hself : ∀ (s : Ipc) (sk : MockSocket), s.socket = some sk →
      ({ s with socket := some sk } : Ipc) = s := by
    rintro ⟨h, p, sock⟩ sk hs
    simp only at hs
    rw [hs]
  have hempty : ∀ (img : NpImage), img.shape0 = 0 → ∀ th tw,
      updateTileOrigins img.shape0 img.shape1 th tw = [] := by
    intro img h0 th tw
    have hc : ceilDiv 0 th = 0 := by
      unfold ceilDiv
      rcases Nat.eq_zero_or_pos th with h | h
      · simp [h]
      · rw [Nat.zero_add]
        exact Nat.div_eq_of_lt (by omega)
    rw [h0]
    unfold updateTileOrigins pyRange
    rw [hc]
    rfl
  refine ⟨?_, ?_, ?_, ?_, ?_, ?_⟩
  · intro s sk hs
    unfold Ipc.enter
    rw [hs]
  · intro s hs
    unfold Ipc.exit
    rw [hs]
  · intro s hs
    refine ⟨?_, ?_, ?_, ?_, ?_, ?_⟩
    · intro path sel gf
      unfold Ipc.open_image
      rw [hs]
    · intro name gf
      unfold Ipc.reload_image
      rw [hs]
    · intro name
      unfold Ipc.close_image
      rw [hs]
    · intro name w h cns gf
      unfold Ipc.create_image
      rw [hs]
    · intro name img cns x y gf pt
      unfold Ipc.update_image
      rw [hs]
    · intro name cmds app gf
      unfold Ipc.update_vector_graphics
      rw [hs]
  · intro s sk hs hclosed
    refine ⟨?_, ?_, ?_, ?_, ?_, ?_⟩
    · intro path sel gf
      simp [Ipc.open_image, hs, MockSocket.sendall, hclosed]
    · intro name gf
      simp [Ipc.reload_image, hs, MockSocket.sendall, hclosed]
    · intro name
      simp [Ipc.close_image, hs, MockSocket.sendall, hclosed]
    · intro name w h cns gf hascii
      unfold Ipc.create_image createImagePacket
      rw [hs, if_pos hascii]
      simp [MockSocket.sendall, hclosed]
    · intro name cmds app gf
      simp [Ipc.update_vector_graphics, hs, MockSocket.sendall, hclosed]
    · intro name img cns x y gf hH hW hn
      unfold Ipc.update_image
      rw [hs, updateImagePackets_ok_tiled name img cns x y gf hn]
      have hlen : 0 < ((updateTileOrigins img.shape0 img.shape1 128 128).length) := by
        rw [length_updateTileOrigins]
        have h1 : 0 < ceilDiv img.shape0 128 := by
          rw [show (0 : Nat) = 128 * 0 from rfl] at hH
          exact (lt_ceilDiv_iff (by norm_num)).2 (by omega)
        have h2 : 0 < ceilDiv img.shape1 128 := by
          exact (lt_ceilDiv_iff (by norm_num)).2 (by omega)
        exact Nat.mul_pos h1 h2
      cases hmap : (updateTileOrigins img.shape0 img.shape1 128 128).map
          (fun p => updateImageTilePacket name img cns (nChannelsOf img)
            ((List.range (nChannelsOf img)).map Int.ofNat)
            (List.replicate (nChannelsOf img) (Int.ofNat (nChannelsOf img)))
            x y gf p.1 p.2
            (tileExtent img.shape0 p.1 128) (tileExtent img.shape1 p.2 128)) with
      | nil =>
        rw [List.map_eq_nil_iff] at hmap
        rw [hmap] at hlen
        simp at hlen
      | cons t rest =>
        simp [sendPackets, MockSocket.sendall, hclosed, hself s sk hs]
  · intro s sk hs name img cns x y gf h0 hn
    unfold Ipc.update_image
    rw [hs]
    have hok : updateImagePackets name img cns x y gf true = .ok [] := by
      rw [updateImagePackets_ok_tiled name img cns x y gf hn, hempty img h0]
      rfl
    rw [hok]
    unfold sendPackets
    simp only
    rw [hself s sk hs]
  · intro s sk hs name img cns x y gf hz hn
    unfold Ipc.update_image
    rw [hs, updateImagePackets_valueError name img cns x y gf hn hz]

theorem C7_session_state_errors_amended_witness :
    ((Ipc.mk [] 14158 (some ⟨false, []⟩)).socket = some ⟨false, []⟩ ∧
      Ipc.enter (Ipc.mk [] 14158 (some ⟨false, []⟩))
        = (.error .communicationAlreadyStarted, Ipc.mk [] 14158 (some ⟨false, []⟩))) ∧
    ((Ipc.init [] 14158).socket = none ∧
      Ipc.exit (Ipc.init [] 14158)
        = (.error .communicationWasNotStarted, Ipc.init [] 14158)) ∧
    Ipc.open_image (Ipc.init [] 14158) [116] [] true
      = (.error .communicationWasNotStarted, Ipc.init [] 14158) ∧
    Ipc.close_image (Ipc.mk [] 14158 (some ⟨true, []⟩)) [78]
      = (.error .osError, Ipc.mk [] 14158 (some ⟨true, []⟩)) ∧
    Ipc.update_image (Ipc.mk [] 14158 (some ⟨true, []⟩)) [78]
        ⟨0, 5, none, fun _ _ _ => 0⟩ [[82]] 0 0 false true
      = (.ok (), Ipc.mk [] 14158 (some ⟨true, []⟩)) ∧
    Ipc.update_image (Ipc.mk [] 14158 (some ⟨true, []⟩)) [78]
        ⟨0, 5, none, fun _ _ _ => 0⟩ [[82]] 0 0 false false
      = (.error .valueError, Ipc.mk [] 14158 (some ⟨true, []⟩)) :=
  ⟨⟨rfl, C7_session_state_errors_amended.1 (Ipc.mk [] 14158 (some ⟨false, []⟩))
      ⟨false, []⟩ rfl⟩,
   ⟨rfl, C7_session_state_errors_amended.2.1 (Ipc.init [] 14158) rfl⟩,
   (C7_session_state_errors_amended.2.2.1 (Ipc.init [] 14158) rfl).1 [116] [] true,
   (C7_session_state_errors_amended.2.2.2.1 (Ipc.mk [] 14158 (some ⟨true, []⟩))
      ⟨true, []⟩ rfl rfl).2.2.1 [78],
   C7_session_state_errors_amended.2.2.2.2.1 (Ipc.mk [] 14158 (some ⟨true, []⟩))
      ⟨true, []⟩ rfl [78] ⟨0, 5, none, fun _ _ _ => 0⟩ [[82]] 0 0 false rfl (by decide),
   C7_session_state_errors_amended.2.2.2.2.2 (Ipc.mk [] 14158 (some ⟨true, []⟩))
      ⟨true, []⟩ rfl [78] ⟨0, 5, none, fun _ _ _ => 0⟩ [[82]] 0 0 false
      (Or.inl rfl) (by decide)⟩
